import Mathlib

/-!
Verification of the Meterstick model-fitting core (`models.py`) against its
natural-language specification.

The Python functions are shallowly embedded over `ℚ`:
* matrices are `List (List ℚ)` built row-major, exactly as the numpy arrays
  produced by `symmetrize_triangular`;
* external numeric capabilities (`np.linalg.solve`, `np.linalg.cond`, the SQL
  `execute` round trips, sklearn fit objects) are parameters of the embedded
  functions, since they are external libraries for the source as well;
* Python exceptions become `Except String`, printed warnings become explicit
  warning lists in the return value.
-/

/-- Row-major index of entry `(i, j)` (with `i ≤ j`) in the flat list of
upper-triangular entries of an `n × n` matrix, i.e. the enumeration order of
`np.triu_indices(n)`: row 0 contributes `n` entries, row 1 the next `n - 1`,
and so on. -/
def triu_index (n i j : Nat) : Nat :=
  match i with
  | 0 => j
  | i' + 1 => n + triu_index (n - 1) i' (j - 1)

/-- A dense `n × n` rational matrix materialised row-major from an entry
function, mirroring how numpy arrays are produced entrywise. -/
def mkMat (n : Nat) (f : Nat → Nat → ℚ) : List (List ℚ) :=
  (List.range n).map fun i => (List.range n).map fun j => f i j

/-- Entry `(i, j)` of a row-major matrix, with 0 as out-of-bounds default. -/
def matEntry (A : List (List ℚ)) (i j : Nat) : ℚ :=
  (A.getD i []).getD j 0

/-- Elementwise matrix sum, the embedding of numpy `+` on equal-shape arrays. -/
def matAdd (A B : List (List ℚ)) : List (List ℚ) :=
  List.zipWith (List.zipWith (· + ·)) A B

/-- Scalar multiple of a matrix, the embedding of numpy `c * A`. -/
def smul (c : ℚ) (A : List (List ℚ)) : List (List ℚ) :=
  A.map (List.map fun x => c * x)

/-- Embedding of `np.diag(A.diagonal())`: the diagonal of `A` as a square
matrix of the same size. -/
def diagOf (A : List (List ℚ)) : List (List ℚ) :=
  mkMat A.length fun i j => if i = j then matEntry A i i else 0

/-- Elementwise difference of two vectors, the embedding of numpy `-`. -/
def listSub (a b : List ℚ) : List ℚ :=
  List.zipWith (· - ·) a b

/-- Dot product of two rational vectors. -/
def dot (a b : List ℚ) : ℚ :=
  (List.zipWith (· * ·) a b).sum

/-- Embedding of `abs(delta).max()` for the (nonempty) numpy vectors used by
the Newton solver; 0 for the empty list. -/
def maxAbs (l : List ℚ) : ℚ :=
  (l.map abs).foldr max 0

/-- Embedding of `symmetrize_triangular` (models.py): `n` is the integer
square root of `2 * len`, a `ValueError` is raised when `n(n+1)/2 ≠ len`,
otherwise the flat list fills the upper triangle of `U` row-major and the
result is `U + Uᵀ - diag(U.diagonal())`. -/
def symmetrize_triangular (tril_elements : List ℚ) : Except String (List (List ℚ)) :=
  let n := Nat.sqrt (2 * tril_elements.length)
  if n * (n + 1) / 2 ≠ tril_elements.length then
    .error "The elements cannot form a symmetric matrix!"
  else
    let U : Nat → Nat → ℚ := fun i j =>
      if i ≤ j then tril_elements.getD (triu_index n i j) 0 else 0
    .ok (mkMat n fun i j => U i j + U j i - (if i = j then U i i else 0))

/-- The flat list produced by the nested Python loop
`for i in range(k): for j in range(i, k): acc.append(f(i, j))`, i.e. the
unique upper-triangular pairs enumerated row-major. -/
def upperPairs {α : Type} (k : Nat) (f : Nat → Nat → α) : List α :=
  ((List.range k).map fun i => (List.range' i (k - i)).map fun j => f i j).flatten

/-- Column name `x{i}` used for feature means in sufficient-statistics rows. -/
def xName (i : Nat) : String := "x" ++ toString i

/-- Column name `x{i}x{j}` for pairwise-product means. -/
def pairName (i j : Nat) : String := "x" ++ toString i ++ "x" ++ toString j

/-- Column name `x{i}y` for feature-times-response means. -/
def xyName (i : Nat) : String := "x" ++ toString i ++ "y"

/-- Embedding of Python `s.replace('macro_', '$')`: replace every
non-overlapping occurrence, scanning left to right. -/
def macro_to_dollar : List Char → List Char
  | 'm' :: 'a' :: 'c' :: 'r' :: 'o' :: '_' :: rest => '$' :: macro_to_dollar rest
  | c :: rest => c :: macro_to_dollar rest
  | [] => []

/-- Embedding of Python `s.strip(backtick)`: drop leading and trailing
backquote characters (code point 96). -/
def strip_graves (l : List Char) : List Char :=
  let g := Char.ofNat 96
  ((l.dropWhile (· = g)).reverse.dropWhile (· = g)).reverse

/-- The output-name cleanup `n.replace('macro_', '$').strip(backtick)` applied
to feature names before building the coefficient row. -/
def clean_name (s : String) : String :=
  String.mk (strip_graves (macro_to_dollar s.toList))

/-- Configuration of a closed-form model as far as `compute_ridge_coefs` reads
it: whether it `isinstance(m, Ridge)`, its `alpha`, `fit_intercept` and
`normalize` flags. -/
structure ModelCfg where
  isRidge : Bool
  alpha : ℚ
  fit_intercept : Bool
  normalize : Bool

/-- Result of one closed-form solve: the printed warnings, the output column
names, and the coefficient row. -/
structure CoefResult where
  warnings : List String
  names : List String
  coef : List ℚ
deriving DecidableEq

/-- The condition-number diagnostic printed by both closed-form solvers. -/
def cond_warning : String :=
  "WARNING: The condition number of XtX is large. The model coefficients might be inaccurate."

/-- Embedding of `construct_matrix_from_elements` for a single
sufficient-statistics row (`stats` maps column names to values): collects the
`x{i}` means (when `fit_intercept`), the `x{i}x{j}` pairwise means, prepends
the constant 1 for the intercept, symmetrizes into `X'X`, and reads `y` and
the `x{i}y` columns into `X'y`. -/
def construct_matrix_from_elements (stats : String → ℚ) (xs : List String)
    (fit_intercept : Bool) : Except String (List (List ℚ) × List ℚ) :=
  let n := xs.length
  let x_t_x_cols : List String :=
    (if fit_intercept then (List.range n).map xName else []) ++ upperPairs n pairName
  let x_t_y_cols : List String :=
    (if fit_intercept then ["y"] else []) ++ (List.range n).map xyName
  let x_t_x_elements := x_t_x_cols.map stats
  let x_t_x_elements := if fit_intercept then 1 :: x_t_x_elements else x_t_x_elements
  let x_t_y := x_t_y_cols.map stats
  match symmetrize_triangular x_t_x_elements with
  | .error e => .error e
  | .ok x_t_x => .ok (x_t_x, x_t_y)

/-- Embedding of `np.identity(d)` followed by `penalty[0, 0] = 0` when
`fit_intercept`: the ridge penalty pattern with the intercept entry zeroed. -/
def penaltyMat (d : Nat) (fit_intercept : Bool) : List (List ℚ) :=
  mkMat d fun i j => if i = j then (if fit_intercept = true ∧ i = 0 then 0 else 1) else 0

/-- Embedding of `compute_coef_for_normalize_ridge`: centered cross-moments
are derived algebraically from the raw aggregates, symmetrized, the ridge
penalty `alpha * diag(XtX)` added, the system solved through the external
`solve` capability (`np.linalg.solve`), and the intercept recovered as
`avg(y) - coef . avg(x)`. `cond` is the external `np.linalg.cond`. -/
def compute_coef_for_normalize_ridge (solve : List (List ℚ) → List ℚ → List ℚ)
    (cond : List (List ℚ) → ℚ) (stats : String → ℚ) (xs : List String)
    (m : ModelCfg) : Except String CoefResult :=
  let n := xs.length
  let x_t_y := (List.range n).map fun i => stats (xyName i) - stats (xName i) * stats "y"
  let x_t_x_elements :=
    upperPairs n fun i j => stats (pairName i j) - stats (xName i) * stats (xName j)
  match symmetrize_triangular x_t_x_elements with
  | .error e => .error e
  | .ok x_t_x0 =>
    let x_t_x := if m.isRidge then matAdd x_t_x0 (smul m.alpha (diagOf x_t_x0)) else x_t_x0
    let warns := if cond x_t_x > 20 then [cond_warning] else []
    let coef := solve x_t_x x_t_y
    let names := xs.map clean_name
    let intercept := stats "y" - dot coef ((List.range n).map fun i => stats (xName i))
    .ok ⟨warns, "intercept" :: names, intercept :: coef⟩

/-- Embedding of `compute_ridge_coefs` on one sufficient-statistics row: the
normalized branch delegates to `compute_coef_for_normalize_ridge`; otherwise
the normal equations come from `construct_matrix_from_elements`, a Ridge model
adds `alpha / n_obs` times the identity with the intercept entry zeroed, the
condition number is checked (warning only), and the system is solved. -/
def compute_ridge_coefs (solve : List (List ℚ) → List ℚ → List ℚ)
    (cond : List (List ℚ) → ℚ) (stats : String → ℚ) (xs : List String)
    (m : ModelCfg) : Except String CoefResult :=
  if m.fit_intercept && m.normalize then
    compute_coef_for_normalize_ridge solve cond stats xs m
  else
    match construct_matrix_from_elements stats xs m.fit_intercept with
    | .error e => .error e
    | .ok (x_t_x0, x_t_y) =>
      let x_t_x :=
        if m.isRidge then
          matAdd x_t_x0 (smul (m.alpha / stats "n_obs") (penaltyMat x_t_y.length m.fit_intercept))
        else x_t_x0
      let warns := if cond x_t_x > 20 then [cond_warning] else []
      let coef := solve x_t_x x_t_y
      let names := xs.map clean_name
      let names := if m.fit_intercept then "intercept" :: names else names
      .ok ⟨warns, names, coef⟩

/-- `Ridge.compute_on_sql_magic_mode` per sufficient-statistics row: fetch the
sufficient statistics (external) and apply `compute_ridge_coefs` with a Ridge
configuration. -/
def ridge_magic_coefs (solve : List (List ℚ) → List ℚ → List ℚ)
    (cond : List (List ℚ) → ℚ) (stats : String → ℚ) (xs : List String)
    (alpha : ℚ) (fit_intercept normalize : Bool) : Except String CoefResult :=
  compute_ridge_coefs solve cond stats xs ⟨true, alpha, fit_intercept, normalize⟩

/-- `LinearRegression.compute_on_sql_magic_mode` per sufficient-statistics
row: the source constructs `Ridge(self.y, self.x, self.group_by, 0, ...)` with
identical configuration and delegates to its magic mode. -/
def linear_regression_magic_coefs (solve : List (List ℚ) → List ℚ → List ℚ)
    (cond : List (List ℚ) → ℚ) (stats : String → ℚ) (xs : List String)
    (fit_intercept normalize : Bool) : Except String CoefResult :=
  ridge_magic_coefs solve cond stats xs 0 fit_intercept normalize

/-- The logistic-regression flags read by
`LogisticRegression.compute_on_sql_magic_mode`: `class_weight` (None or a
setting), `multi_class`, `penalty`, `l1_ratio` (None or a number) and the
stored `intercept_scaling`. -/
structure LogisticMagicCfg where
  class_weight : Option String
  multi_class : String
  penalty : String
  l1_ratio : Option ℚ
  intercept_scaling : ℚ

/-- Python truthiness test `not self.l1_ratio`: true for `None` and for 0. -/
def l1_ratio_falsy : Option ℚ → Bool
  | none => true
  | some r => r == 0

/-- The non-fatal sparsity warning printed for the l1 and elasticnet
penalties. -/
def sparsity_warning : String :=
  "WARNING: Our solution for L1 and elasticnet penalty does not quite achieve sparsity."

/-- The precondition prefix of `LogisticRegression.compute_on_sql_magic_mode`,
up to and including the binary-response check; `n_y` is the number of distinct
response values computed by the external query. Returns the printed warnings
on success. -/
def logistic_magic_preconditions (cfg : LogisticMagicCfg) (n_y : Nat) :
    Except String (List String) :=
  if cfg.class_weight.isSome then
    .error "Magic mode does not support class_weight!"
  else if cfg.multi_class = "multinomial" then
    .error "Magic mode does not support multi_class!"
  else if cfg.penalty = "elasticnet" ∧
      (l1_ratio_falsy cfg.l1_ratio = true ∨
        ¬ (0 ≤ cfg.l1_ratio.getD 0 ∧ cfg.l1_ratio.getD 0 ≤ 1)) then
    .error "l1_ratio must be between 0 and 1"
  else if cfg.intercept_scaling ≠ 1 then
    .error "intercept_scaling is not supported in magic mode!"
  else
    let warns := if cfg.penalty = "l1" ∨ cfg.penalty = "elasticnet" then [sparsity_warning] else []
    if n_y ≠ 2 then
      .error "Magic mode only support two classes!"
    else
      .ok warns

/-- Python exceptions visible to the mode dispatcher: the distinguished
`MaybeBadSqlModeError` (with its suggested-mode payload), `ValueError`, and
any other exception. -/
inductive PyErr where
  | maybeBadSqlMode (suggestion : String)
  | valueError (msg : String)
  | otherError (msg : String)
deriving DecidableEq

/-- Python `str(mode)` for the mode argument (`None` or a string). -/
def mode_str : Option String → String
  | none => "None"
  | some s => s

/-- The magic-path attempt as `compute_through_sql` wraps it: on success apply
the name template; on any failure signal the distinguished
`MaybeBadSqlModeError('mixed')`. -/
def magic_attempt {α : Type} (tmpl : α → α) (magicRaw : Except PyErr α) : Except PyErr α :=
  match magicRaw with
  | .ok r => .ok (tmpl r)
  | .error _ => .error (.maybeBadSqlMode "mixed")

/-- Modelled from the spec: `compute_on_sql_mixed_mode` is inherited from
`operations.py`, which is not among the sources. Per the specification, mixed
mode first attempts the pushdown/magic path; on the distinguished failure
signal it falls back to evaluating children through SQL and fitting locally
(the `fallback` capability); the signal must not leak when the fallback
succeeds and is re-raised unchanged when the fallback also fails; any other
magic-path error propagates. -/
def compute_on_sql_mixed_mode {α : Type} (magicTry fallback : Except PyErr α) :
    Except PyErr α :=
  match magicTry with
  | .ok r => .ok r
  | .error (.maybeBadSqlMode s) =>
    match fallback with
    | .ok r => .ok r
    | .error _ => .error (.maybeBadSqlMode s)
  | .error e => .error e

/-- Embedding of `Model.compute_through_sql`: mode validation, refusal of pure
SQL mode, the magic-mode computability requirement, the mixed/unset branch
(with `MaybeBadSqlModeError` re-raised as-is and any other exception wrapped
into `MaybeBadSqlModeError('magic')`), and the magic branch (failures wrapped
into `MaybeBadSqlModeError('mixed')`). The implicit Python `return None`
fall-through is `.ok none`. -/
def compute_through_sql {α : Type} (mode : Option String) (name : String)
    (allComputable : Bool) (tmpl : α → α) (magicRaw fallback : Except PyErr α) :
    Except PyErr (Option α) :=
  if mode ∉ ([none, some "sql", some "mixed", some "magic"] : List (Option String)) then
    .error (.valueError ("Mode " ++ mode_str mode ++ " is not supported!"))
  else if mode = some "sql" then
    .error (.valueError (name ++ " is not computable in pure SQL!"))
  else if mode = some "magic" ∧ allComputable = false then
    .error (.valueError ("The magic mode of " ++ name ++
      " requires all descendants to be computable in SQL!"))
  else if mode = some "mixed" ∨ mode = none then
    match compute_on_sql_mixed_mode (magic_attempt tmpl magicRaw) fallback with
    | .ok r => .ok (some r)
    | .error (.maybeBadSqlMode s) => .error (.maybeBadSqlMode s)
    | .error _ => .error (.maybeBadSqlMode "magic")
  else if allComputable then
    match magicRaw with
    | .ok r => .ok (some (tmpl r))
    | .error _ => .error (.maybeBadSqlMode "mixed")
  else .ok none

/-- The metric-tree shapes distinguished by `count_features`, in the order of
its `isinstance` dispatch: `Model`, `metrics.MetricList`,
`operations.MetricWithCI` (with its `confidence` flag), any other
`operations.Operation`, `metrics.CompositeMetric` (a binary combination),
`metrics.Quantile` (with `one_quantile` and `len(quantile)`), and any other
leaf metric. -/
inductive MetricNode where
  | model (k : Nat)
  | metricList (children : List MetricNode)
  | metricWithCI (confidence : Bool) (child : MetricNode)
  | operation (child : MetricNode)
  | composite (left right : MetricNode)
  | quantile (one_quantile : Bool) (num_quantiles : Nat)
  | simple

mutual
/-- Embedding of `count_features`: the output width of a metric node. -/
def count_features : MetricNode → Nat
  | .model k => k
  | .metricList cs => count_features_list cs
  | .metricWithCI confidence c =>
    if confidence then count_features c * 3 else count_features c * 2
  | .operation c => count_features c
  | .composite a b => max (count_features a) (count_features b)
  | .quantile one_q num_q => if one_q then 1 else num_q
  | .simple => 1

/-- The Python `sum([count_features(i) for i in m])` over a `MetricList`. -/
def count_features_list : List MetricNode → Nat
  | [] => 0
  | c :: cs => count_features c + count_features_list cs
end

/-- One iteration of the loop body of `newtons_method`: compute the Hessians
and gradients for the current coefficients, then, for every not-yet-converged
slice, solve `H . delta = grad`, mark the slice converged when
`max |delta| < tol`, and update `coef[i] -= delta`. -/
def newton_step (solve : List (List ℚ) → List ℚ → List ℚ)
    (gradsF : List (List ℚ) → List Bool → List (List ℚ))
    (hessF : List (List ℚ) → List Bool → List (List (List ℚ)))
    (tol : ℚ) (coef : List (List ℚ)) (converged : List Bool) :
    List (List ℚ) × List Bool :=
  let h := hessF coef converged
  let j := gradsF coef converged
  ((List.range coef.length).map fun i =>
      if converged.getD i false then coef.getD i []
      else listSub (coef.getD i []) (solve (h.getD i []) (j.getD i [])),
    (List.range coef.length).map fun i =>
      if converged.getD i false then true
      else decide (maxAbs (solve (h.getD i []) (j.getD i [])) < tol))

/-- The `for _ in range(max_iter)` loop of `newtons_method`; the boolean
records whether the loop returned early because all slices converged. -/
def newton_loop (solve : List (List ℚ) → List ℚ → List ℚ)
    (gradsF : List (List ℚ) → List Bool → List (List ℚ))
    (hessF : List (List ℚ) → List Bool → List (List (List ℚ)))
    (tol : ℚ) : Nat → List (List ℚ) → List Bool →
    (List (List ℚ) × List Bool) × Bool
  | 0, coef, converged => ((coef, converged), false)
  | fuel + 1, coef, converged =>
    let s := newton_step solve gradsF hessF tol coef converged
    if s.2.all (· = true) then (s, true)
    else newton_loop solve gradsF hessF tol fuel s.1 s.2

/-- Plain iteration of `newton_step`, used to state what the loop computes. -/
def newton_iterates (solve : List (List ℚ) → List ℚ → List ℚ)
    (gradsF : List (List ℚ) → List Bool → List (List ℚ))
    (hessF : List (List ℚ) → List Bool → List (List (List ℚ)))
    (tol : ℚ) (s : List (List ℚ) × List Bool) : Nat → List (List ℚ) × List Bool
  | 0 => s
  | t + 1 =>
    let p := newton_iterates solve gradsF hessF tol s t
    newton_step solve gradsF hessF tol p.1 p.2

/-- The two shapes of the non-convergence warning printed by
`newtons_method`: a bare message when there is a single slice, otherwise the
message together with the group keys of the unconverged slices. -/
inductive NewtonWarning where
  | generic
  | slices (names : List String)
deriving DecidableEq

/-- `np.array(conds)[~converged]`: the group keys of unconverged slices. -/
def unconverged_conds (conds : List String) (converged : List Bool) : List String :=
  ((conds.zip converged).filter fun p => !p.2).map Prod.fst

/-- Embedding of `newtons_method`: run at most `max_iter` Newton iterations
over all slices, return the coefficients as soon as every slice has
converged, and otherwise return the last iterate together with the
non-fatal warning. -/
def newtons_method (solve : List (List ℚ) → List ℚ → List ℚ)
    (coef : List (List ℚ))
    (gradsF : List (List ℚ) → List Bool → List (List ℚ))
    (hessF : List (List ℚ) → List Bool → List (List (List ℚ)))
    (tol : ℚ) (max_iter : Nat) (conds : List String) :
    List (List ℚ) × List NewtonWarning :=
  let n_slice := coef.length
  let r := newton_loop solve gradsF hessF tol max_iter coef (coef.map fun _ => false)
  if r.2 then (r.1.1, [])
  else
    (r.1.1,
      [if n_slice = 1 then .generic else .slices (unconverged_conds conds r.1.2)])

lemma nat_sqrt_mul_succ (n : Nat) : Nat.sqrt (n * (n + 1)) = n := by
  have h1 : n ≤ Nat.sqrt (n * (n + 1)) := by
    rw [Nat.le_sqrt]
    exact Nat.mul_le_mul_left n (Nat.le_succ n)
  have h2 : Nat.sqrt (n * (n + 1)) < n + 1 := by
    rw [Nat.sqrt_lt]
    nlinarith
  omega

lemma two_mul_tri (n : Nat) : 2 * (n * (n + 1) / 2) = n * (n + 1) :=
  Nat.mul_div_cancel' (Nat.even_mul_succ_self n).two_dvd

lemma mkMat_congr (n : Nat) (f g : Nat → Nat → ℚ)
    (h : ∀ i j, i < n → j < n → f i j = g i j) : mkMat n f = mkMat n g := by
  unfold mkMat
  apply List.map_congr_left
  intro i hi
  apply List.map_congr_left
  intro j hj
  exact h i j (List.mem_range.mp hi) (List.mem_range.mp hj)

lemma mkMat_length (n : Nat) (f : Nat → Nat → ℚ) : (mkMat n f).length = n := by
  simp [mkMat]

lemma matEntry_mkMat (n : Nat) (f : Nat → Nat → ℚ) (i j : Nat)
    (hi : i < n) (hj : j < n) : matEntry (mkMat n f) i j = f i j := by
  unfold matEntry mkMat
  have h1 : (List.map (fun i => List.map (fun j => f i j) (List.range n)) (List.range n)).getD i []
      = List.map (fun j => f i j) (List.range n) := by
    have hl : i <
        (List.map (fun i => List.map (fun j => f i j) (List.range n)) (List.range n)).length := by
      simp [hi]
    rw [List.getD_eq_getElem _ _ hl]
    simp
  rw [h1, List.getD_eq_getElem?_getD]
  simp [List.getElem?_map, List.getElem?_range, hj]

lemma upperPairs_succ {α : Type} (k : Nat) (f : Nat → Nat → α) :
    upperPairs (k + 1) f
      = (List.range (k + 1)).map (f 0) ++ upperPairs k (fun i j => f (i + 1) (j + 1)) := by
  unfold upperPairs
  rw [List.range_succ_eq_map, List.map_cons, List.flatten_cons]
  congr 1
  · rw [Nat.sub_zero, List.range'_eq_map_range, List.map_map, List.range_succ_eq_map]
    simp [Function.comp]
  · rw [List.map_map]
    congr 1
    apply List.map_congr_left
    intro i _
    simp only [Function.comp]
    have h1 : k + 1 - Nat.succ i = k - i := by omega
    rw [h1, List.range'_eq_map_range, List.range'_eq_map_range, List.map_map, List.map_map]
    apply List.map_congr_left
    intro d _
    simp only [Function.comp]
    congr 1
    omega

lemma upperPairs_length {α : Type} (k : Nat) (f : Nat → Nat → α) :
    (upperPairs k f).length = k * (k + 1) / 2 := by
  induction k generalizing f with
  | zero => simp [upperPairs]
  | succ n ih =>
    rw [upperPairs_succ, List.length_append, ih, List.length_map, List.length_range]
    have h1 : 2 * (n * (n + 1) / 2) = n * (n + 1) := two_mul_tri n
    have h2 : 2 * ((n + 1) * (n + 1 + 1) / 2) = (n + 1) * (n + 1 + 1) := two_mul_tri (n + 1)
    have h3 : (n + 1) * (n + 1 + 1) = n * (n + 1) + 2 * (n + 1) := by ring
    omega

lemma upperPairs_map {α β : Type} (k : Nat) (f : Nat → Nat → α) (g : α → β) :
    (upperPairs k f).map g = upperPairs k fun i j => g (f i j) := by
  unfold upperPairs
  rw [List.map_flatten, List.map_map]
  congr 1
  apply List.map_congr_left
  intro i _
  simp [Function.comp, List.map_map]

lemma upperPairs_getD (i : Nat) :
    ∀ (k : Nat) (f : Nat → Nat → ℚ) (j : Nat), i ≤ j → j < k →
      (upperPairs k f).getD (triu_index k i j) 0 = f i j := by
  induction i with
  | zero =>
    intro k f j hij hj
    obtain ⟨k', rfl⟩ : ∃ k', k = k' + 1 := ⟨k - 1, by omega⟩
    rw [upperPairs_succ]
    show ((List.range (k' + 1)).map (f 0) ++ _).getD j 0 = f 0 j
    rw [List.getD_append _ _ _ _ (by simp; omega)]
    rw [List.getD_eq_getElem?_getD]
    simp [List.getElem?_map, List.getElem?_range, hj]
  | succ i' ih =>
    intro k f j hij hj
    obtain ⟨k', rfl⟩ : ∃ k', k = k' + 1 := ⟨k - 1, by omega⟩
    obtain ⟨j', rfl⟩ : ∃ j', j = j' + 1 := ⟨j - 1, by omega⟩
    rw [upperPairs_succ]
    show ((List.range (k' + 1)).map (f 0) ++ _).getD ((k' + 1) + triu_index k' i' j') 0 = _
    rw [List.getD_append_right _ _ _ _ (by simp)]
    simp only [List.length_map, List.length_range, Nat.add_sub_cancel_left]
    exact ih k' _ j' (by omega) (by omega)

lemma symmetrize_upperPairs (k : Nat) (f : Nat → Nat → ℚ) :
    symmetrize_triangular (upperPairs k f)
      = .ok (mkMat k fun i j => f (min i j) (max i j)) := by
  have hlen : (upperPairs k f).length = k * (k + 1) / 2 := upperPairs_length k f
  have hn2 : Nat.sqrt (2 * (k * (k + 1) / 2)) = k := by
    rw [two_mul_tri, nat_sqrt_mul_succ]
  unfold symmetrize_triangular
  simp only [hlen, hn2]
  rw [if_neg (by omega)]
  congr 1
  apply mkMat_congr
  intro i j hi hj
  rcases Nat.lt_trichotomy i j with hlt | heq | hgt
  · rw [if_pos (le_of_lt hlt), if_neg (by omega), if_neg (by omega)]
    rw [upperPairs_getD i k f j (le_of_lt hlt) hj]
    rw [min_eq_left (le_of_lt hlt), max_eq_right (le_of_lt hlt)]
    ring
  · subst heq
    have hg := upperPairs_getD i k f i le_rfl hi
    rw [List.getD_eq_getElem?_getD] at hg
    simp [hg]
  · rw [if_neg (by omega), if_pos (le_of_lt hgt), if_neg (by omega)]
    rw [upperPairs_getD j k f i (le_of_lt hgt) hi]
    rw [min_eq_right (le_of_lt hgt), max_eq_left (le_of_lt hgt)]
    simp

lemma smul_mkMat (c : ℚ) (n : Nat) (f : Nat → Nat → ℚ) :
    smul c (mkMat n f) = mkMat n fun i j => c * f i j := by
  unfold smul mkMat
  rw [List.map_map]
  apply List.map_congr_left
  intro i _
  simp [List.map_map, Function.comp]

lemma matAdd_mkMat (n : Nat) (f g : Nat → Nat → ℚ) :
    matAdd (mkMat n f) (mkMat n g) = mkMat n fun i j => f i j + g i j := by
  unfold matAdd mkMat
  rw [List.zipWith_map, List.zipWith_same]
  apply List.map_congr_left
  intro i _
  rw [List.zipWith_map, List.zipWith_same]

lemma diagOf_mkMat (n : Nat) (f : Nat → Nat → ℚ) :
    diagOf (mkMat n f) = mkMat n fun i j => if i = j then f i i else 0 := by
  unfold diagOf
  rw [mkMat_length]
  apply mkMat_congr
  intro i j hi hj
  by_cases h : i = j
  · subst h
    rw [if_pos rfl, if_pos rfl, matEntry_mkMat n f i i hi hi]
  · rw [if_neg h, if_neg h]

lemma intercept_elements_eq (stats : String → ℚ) (k : Nat) :
    (1 : ℚ) :: ((List.range k).map (fun i => stats (xName i))
        ++ upperPairs k fun i j => stats (pairName i j))
      = upperPairs (k + 1) fun a b =>
          if a = 0 then (if b = 0 then 1 else stats (xName (b - 1)))
          else stats (pairName (a - 1) (b - 1)) := by
  rw [upperPairs_succ, List.range_succ_eq_map, List.map_cons, List.cons_append]
  refine List.cons_eq_cons.mpr ⟨by simp, ?_⟩
  congr 1
  rw [List.map_map]
  apply List.map_congr_left
  intro m _
  simp [Function.comp]

lemma construct_intercept (stats : String → ℚ) (xs : List String) :
    construct_matrix_from_elements stats xs true
      = .ok (mkMat (xs.length + 1) (fun i j =>
          if min i j = 0 then (if max i j = 0 then 1 else stats (xName (max i j - 1)))
          else stats (pairName (min i j - 1) (max i j - 1))),
        stats "y" :: ((List.range xs.length).map fun i => stats (xyName i))) := by
  have hE : (1 : ℚ) :: (((List.range xs.length).map xName
        ++ upperPairs xs.length pairName).map stats)
      = upperPairs (xs.length + 1) fun a b =>
          if a = 0 then (if b = 0 then 1 else stats (xName (b - 1)))
          else stats (pairName (a - 1) (b - 1)) := by
    rw [List.map_append, List.map_map, upperPairs_map]
    exact intercept_elements_eq stats xs.length
  show (match symmetrize_triangular ((1 : ℚ) :: (((List.range xs.length).map xName
        ++ upperPairs xs.length pairName).map stats)) with
    | Except.error e => Except.error e
    | Except.ok x_t_x =>
      Except.ok (x_t_x, (["y"] ++ (List.range xs.length).map xyName).map stats)) = _
  rw [hE, symmetrize_upperPairs]
  simp [List.map_map, Function.comp]

lemma construct_no_intercept (stats : String → ℚ) (xs : List String) :
    construct_matrix_from_elements stats xs false
      = .ok (mkMat xs.length (fun i j => stats (pairName (min i j) (max i j))),
        (List.range xs.length).map fun i => stats (xyName i)) := by
  show (match symmetrize_triangular (([] ++ upperPairs xs.length pairName).map stats) with
    | Except.error e => Except.error e
    | Except.ok x_t_x =>
      Except.ok (x_t_x, ([] ++ (List.range xs.length).map xyName).map stats)) = _
  rw [List.nil_append, List.nil_append, upperPairs_map, symmetrize_upperPairs]
  simp [List.map_map, Function.comp]

lemma nat_sqrt_eq_of (m r : Nat) (h1 : r * r ≤ m) (h2 : m < (r + 1) * (r + 1)) :
    Nat.sqrt m = r := by
  have a := Nat.le_sqrt.mpr h1
  have b := Nat.sqrt_lt.mpr h2
  omega

lemma compute_coef_for_normalize_ridge_eq (solve : List (List ℚ) → List ℚ → List ℚ)
    (cond : List (List ℚ) → ℚ) (stats : String → ℚ) (xs : List String) (m : ModelCfg) :
    compute_coef_for_normalize_ridge solve cond stats xs m
      = (let A0 := mkMat xs.length fun i j =>
            stats (pairName (min i j) (max i j)) - stats (xName (min i j)) * stats (xName (max i j));
        let A := if m.isRidge then matAdd A0 (smul m.alpha (diagOf A0)) else A0;
        let b := (List.range xs.length).map fun i =>
            stats (xyName i) - stats (xName i) * stats "y";
        Except.ok ⟨if cond A > 20 then [cond_warning] else [],
          "intercept" :: xs.map clean_name,
          (stats "y" - dot (solve A b) ((List.range xs.length).map fun i => stats (xName i)))
            :: solve A b⟩) := by
  unfold compute_coef_for_normalize_ridge
  simp only [symmetrize_upperPairs]

lemma compute_ridge_coefs_intercept_eq (solve : List (List ℚ) → List ℚ → List ℚ)
    (cond : List (List ℚ) → ℚ) (stats : String → ℚ) (xs : List String) (m : ModelCfg)
    (hfi : m.fit_intercept = true) (hnor : m.normalize = false) :
    compute_ridge_coefs solve cond stats xs m
      = (let A0 := mkMat (xs.length + 1) fun i j =>
            if min i j = 0 then (if max i j = 0 then 1 else stats (xName (max i j - 1)))
            else stats (pairName (min i j - 1) (max i j - 1));
        let b := stats "y" :: ((List.range xs.length).map fun i => stats (xyName i));
        let A := if m.isRidge then
            matAdd A0 (smul (m.alpha / stats "n_obs") (penaltyMat (xs.length + 1) true))
          else A0;
        Except.ok ⟨if cond A > 20 then [cond_warning] else [],
          "intercept" :: xs.map clean_name,
          solve A b⟩) := by
  unfold compute_ridge_coefs
  rw [hfi, hnor, construct_intercept]
  simp

lemma compute_ridge_coefs_no_intercept_eq (solve : List (List ℚ) → List ℚ → List ℚ)
    (cond : List (List ℚ) → ℚ) (stats : String → ℚ) (xs : List String) (m : ModelCfg)
    (hfi : m.fit_intercept = false) :
    compute_ridge_coefs solve cond stats xs m
      = (let A0 := mkMat xs.length fun i j => stats (pairName (min i j) (max i j));
        let b := (List.range xs.length).map fun i => stats (xyName i);
        let A := if m.isRidge then
            matAdd A0 (smul (m.alpha / stats "n_obs") (penaltyMat xs.length false))
          else A0;
        Except.ok ⟨if cond A > 20 then [cond_warning] else [],
          xs.map clean_name,
          solve A b⟩) := by
  unfold compute_ridge_coefs
  rw [hfi, construct_no_intercept]
  simp

lemma getD_map_range {α : Type} (n i : Nat) (d : α) (f : Nat → α) (hi : i < n) :
    ((List.range n).map f).getD i d = f i := by
  rw [List.getD_eq_getElem?_getD]
  simp [List.getElem?_map, List.getElem?_range, hi]

lemma newton_step_coef_getD (solve : List (List ℚ) → List ℚ → List ℚ)
    (gradsF : List (List ℚ) → List Bool → List (List ℚ))
    (hessF : List (List ℚ) → List Bool → List (List (List ℚ)))
    (tol : ℚ) (coef : List (List ℚ)) (v : List Bool) (i : Nat) (hi : i < coef.length) :
    (newton_step solve gradsF hessF tol coef v).1.getD i []
      = if v.getD i false then coef.getD i []
        else listSub (coef.getD i [])
          (solve ((hessF coef v).getD i []) ((gradsF coef v).getD i [])) := by
  unfold newton_step
  exact getD_map_range coef.length i [] _ hi

lemma newton_step_conv_getD (solve : List (List ℚ) → List ℚ → List ℚ)
    (gradsF : List (List ℚ) → List Bool → List (List ℚ))
    (hessF : List (List ℚ) → List Bool → List (List (List ℚ)))
    (tol : ℚ) (coef : List (List ℚ)) (v : List Bool) (i : Nat) (hi : i < coef.length) :
    (newton_step solve gradsF hessF tol coef v).2.getD i false
      = if v.getD i false then true
        else decide (maxAbs (solve ((hessF coef v).getD i []) ((gradsF coef v).getD i [])) < tol) := by
  unfold newton_step
  exact getD_map_range coef.length i false _ hi

lemma newton_iterates_shift (solve : List (List ℚ) → List ℚ → List ℚ)
    (gradsF : List (List ℚ) → List Bool → List (List ℚ))
    (hessF : List (List ℚ) → List Bool → List (List (List ℚ)))
    (tol : ℚ) (s : List (List ℚ) × List Bool) (t : Nat) :
    newton_iterates solve gradsF hessF tol s (t + 1)
      = newton_iterates solve gradsF hessF tol
          (newton_step solve gradsF hessF tol s.1 s.2) t := by
  induction t with
  | zero => rfl
  | succ t ih =>
    show newton_step solve gradsF hessF tol
        (newton_iterates solve gradsF hessF tol s (t + 1)).1
        (newton_iterates solve gradsF hessF tol s (t + 1)).2 = _
    rw [ih]
    rfl

lemma newton_loop_spec (solve : List (List ℚ) → List ℚ → List ℚ)
    (gradsF : List (List ℚ) → List Bool → List (List ℚ))
    (hessF : List (List ℚ) → List Bool → List (List (List ℚ)))
    (tol : ℚ) : ∀ (fuel : Nat) (s : List (List ℚ) × List Bool),
    ∃ t b, t ≤ fuel ∧
      newton_loop solve gradsF hessF tol fuel s.1 s.2
        = (newton_iterates solve gradsF hessF tol s t, b) ∧
      (∀ u, 0 < u → u < t →
        ((newton_iterates solve gradsF hessF tol s u).2.all (· = true)) = false) ∧
      (b = true →
        ((newton_iterates solve gradsF hessF tol s t).2.all (· = true)) = true ∧ 0 < t) ∧
      (b = false → t = fuel ∧ (t = 0 ∨
        ((newton_iterates solve gradsF hessF tol s t).2.all (· = true)) = false)) := by
  intro fuel
  induction fuel with
  | zero =>
    intro s
    exact ⟨0, false, le_rfl, rfl, by omega, by simp, fun _ => ⟨rfl, Or.inl rfl⟩⟩
  | succ fuel ih =>
    intro s
    by_cases hc : ((newton_step solve gradsF hessF tol s.1 s.2).2.all (· = true)) = true
    · refine ⟨1, true, by omega, ?_, by omega, fun _ => ⟨hc, by omega⟩, by simp⟩
      show newton_loop solve gradsF hessF tol (fuel + 1) s.1 s.2 = _
      unfold newton_loop
      rw [if_pos hc]
      rfl
    · obtain ⟨t, b, ht, heq, hmin, hbt, hbf⟩ :=
        ih (newton_step solve gradsF hessF tol s.1 s.2)
      refine ⟨t + 1, b, by omega, ?_, ?_, ?_, ?_⟩
      · show newton_loop solve gradsF hessF tol (fuel + 1) s.1 s.2 = _
        unfold newton_loop
        rw [if_neg hc, newton_iterates_shift]
        exact heq
      · intro u hu0 hut
        obtain ⟨u', rfl⟩ : ∃ u', u = u' + 1 := ⟨u - 1, by omega⟩
        rw [newton_iterates_shift]
        rcases Nat.eq_zero_or_pos u' with h0 | hpos
        · subst h0
          simpa using (Bool.not_eq_true _).mp hc
        · exact hmin u' hpos (by omega)
      · intro hb
        obtain ⟨hall, hpos⟩ := hbt hb
        rw [newton_iterates_shift]
        exact ⟨hall, by omega⟩
      · intro hb
        obtain ⟨hfuel, hrest⟩ := hbf hb
        constructor
        · omega
        · right
          rw [newton_iterates_shift]
          rcases hrest with h0 | hfalse
          · subst h0
            simpa using (Bool.not_eq_true _).mp hc
          · exact hfalse

/-- C1: `symmetrize_triangular` computes `n = floor(sqrt(2 * len))` and raises
a ValueError when `n(n+1)/2 ≠ len`; otherwise it returns the `n × n` symmetric
matrix whose `(i, j)` entry is the packed element at the row-major
upper-triangular index of `(min i j, max i j)` — the result of filling the
upper triangle row-major with the packed list and forming `U + Uᵀ - diag(U)`.
In particular `[1,2,3]` yields `[[1,2],[2,3]]` and `[1,2]` is rejected. -/
theorem symmetrize_triangular_spec :
    (∀ l : List ℚ,
      (Nat.sqrt (2 * l.length) * (Nat.sqrt (2 * l.length) + 1) / 2 ≠ l.length →
        symmetrize_triangular l = .error "The elements cannot form a symmetric matrix!")
      ∧ (Nat.sqrt (2 * l.length) * (Nat.sqrt (2 * l.length) + 1) / 2 = l.length →
        symmetrize_triangular l = .ok (mkMat (Nat.sqrt (2 * l.length)) fun i j =>
          l.getD (triu_index (Nat.sqrt (2 * l.length)) (min i j) (max i j)) 0)))
    ∧ symmetrize_triangular [1, 2, 3] = .ok [[1, 2], [2, 3]]
    ∧ symmetrize_triangular [1, 2] = .error "The elements cannot form a symmetric matrix!" := by
  have hgen : ∀ l : List ℚ,
      (Nat.sqrt (2 * l.length) * (Nat.sqrt (2 * l.length) + 1) / 2 ≠ l.length →
        symmetrize_triangular l = .error "The elements cannot form a symmetric matrix!")
      ∧ (Nat.sqrt (2 * l.length) * (Nat.sqrt (2 * l.length) + 1) / 2 = l.length →
        symmetrize_triangular l = .ok (mkMat (Nat.sqrt (2 * l.length)) fun i j =>
          l.getD (triu_index (Nat.sqrt (2 * l.length)) (min i j) (max i j)) 0)) := by
    intro l
    constructor
    · intro h
      unfold symmetrize_triangular
      rw [if_pos h]
    · intro h
      unfold symmetrize_triangular
      rw [if_neg (by omega)]
      show Except.ok (mkMat (Nat.sqrt (2 * l.length)) fun i j =>
          (if i ≤ j then l.getD (triu_index (Nat.sqrt (2 * l.length)) i j) 0 else 0)
          + (if j ≤ i then l.getD (triu_index (Nat.sqrt (2 * l.length)) j i) 0 else 0)
          - (if i = j then
              (if i ≤ i then l.getD (triu_index (Nat.sqrt (2 * l.length)) i i) 0 else 0)
            else 0)) = _
      congr 1
      congr 1
      funext i j
      rcases Nat.lt_trichotomy i j with hlt | heq | hgt
      · rw [if_pos (le_of_lt hlt), if_neg (by omega), if_neg (by omega)]
        rw [min_eq_left (le_of_lt hlt), max_eq_right (le_of_lt hlt)]
        ring
      · subst heq
        simp
      · rw [if_neg (by omega), if_pos (le_of_lt hgt), if_neg (by omega)]
        rw [min_eq_right (le_of_lt hgt), max_eq_left (le_of_lt hgt)]
        simp
  refine ⟨hgen, ?_, ?_⟩
  · have hs : Nat.sqrt (2 * ([1, 2, 3] : List ℚ).length) = 2 :=
      nat_sqrt_eq_of 6 2 (by norm_num) (by norm_num)
    have h := (hgen [1, 2, 3]).2 (by rw [hs]; decide)
    rw [h, hs]
    rfl
  · have hs : Nat.sqrt (2 * ([1, 2] : List ℚ).length) = 2 :=
      nat_sqrt_eq_of 4 2 (by norm_num) (by norm_num)
    exact (hgen [1, 2]).1 (by rw [hs]; decide)

/-- Witness for C1: the general characterisation applied at the two concrete
inputs, with both arithmetic side conditions discharged. -/
theorem symmetrize_triangular_spec_witness :
    (Nat.sqrt (2 * ([1, 2] : List ℚ).length) * (Nat.sqrt (2 * ([1, 2] : List ℚ).length) + 1) / 2
        ≠ ([1, 2] : List ℚ).length
      ∧ symmetrize_triangular ([1, 2] : List ℚ)
          = .error "The elements cannot form a symmetric matrix!")
    ∧ (Nat.sqrt (2 * ([1, 2, 3] : List ℚ).length)
          * (Nat.sqrt (2 * ([1, 2, 3] : List ℚ).length) + 1) / 2 = ([1, 2, 3] : List ℚ).length
      ∧ symmetrize_triangular ([1, 2, 3] : List ℚ)
          = .ok (mkMat (Nat.sqrt (2 * ([1, 2, 3] : List ℚ).length)) fun i j =>
              ([1, 2, 3] : List ℚ).getD
                (triu_index (Nat.sqrt (2 * ([1, 2, 3] : List ℚ).length)) (min i j) (max i j)) 0)) := by
  have hs2 : Nat.sqrt (2 * ([1, 2] : List ℚ).length) = 2 :=
    nat_sqrt_eq_of 4 2 (by norm_num) (by norm_num)
  have hs3 : Nat.sqrt (2 * ([1, 2, 3] : List ℚ).length) = 2 :=
    nat_sqrt_eq_of 6 2 (by norm_num) (by norm_num)
  have hne : Nat.sqrt (2 * ([1, 2] : List ℚ).length)
      * (Nat.sqrt (2 * ([1, 2] : List ℚ).length) + 1) / 2 ≠ ([1, 2] : List ℚ).length := by
    rw [hs2]
    decide
  have heq : Nat.sqrt (2 * ([1, 2, 3] : List ℚ).length)
      * (Nat.sqrt (2 * ([1, 2, 3] : List ℚ).length) + 1) / 2 = ([1, 2, 3] : List ℚ).length := by
    rw [hs3]
    decide
  exact ⟨⟨hne, (symmetrize_triangular_spec.1 [1, 2]).1 hne⟩,
    ⟨heq, (symmetrize_triangular_spec.1 [1, 2, 3]).2 heq⟩⟩

/-- C4 (code bug): the precondition prefix of
`LogisticRegression.compute_on_sql_magic_mode` rejects
`penalty='elasticnet', l1_ratio=0` — a value inside `[0, 1]` — because the
check `not self.l1_ratio or not 0 <= self.l1_ratio <= 1` treats the falsy
`0` like `None`. The second conjunct records that 0 is within the range the
raised error message itself requires. All other flags here are the valid
defaults and the response is binary. -/
theorem logistic_l1_ratio_zero_rejected :
    logistic_magic_preconditions ⟨none, "auto", "elasticnet", some 0, 1⟩ 2
        = .error "l1_ratio must be between 0 and 1"
      ∧ ((0 : ℚ) ≤ 0 ∧ (0 : ℚ) ≤ 1) := by
  constructor
  · rfl
  · exact ⟨le_rfl, by norm_num⟩

/-- C6 counterexample: `count_features` takes the maximum, not the sum, over
the children of a composite metric: a composite of two width-1 leaves has
width 1, not 2. -/
theorem count_features_composite_not_sum :
    count_features (.composite .simple .simple)
      ≠ count_features MetricNode.simple + count_features MetricNode.simple := by
  decide

/-- C6 (amended): `count_features` sums the widths of the children of a
`MetricList`, takes the maximum of the children widths for a composite
metric, multiplies the child width by 3 (confidence set) or 2 for a
CI-wrapping metric, reports 1 for a single-quantile and `len(quantiles)`
otherwise, and reports 1 for any other leaf metric. -/
theorem count_features_spec :
    (∀ cs : List MetricNode, count_features (.metricList cs) = (cs.map count_features).sum)
    ∧ (∀ a b : MetricNode,
        count_features (.composite a b) = max (count_features a) (count_features b))
    ∧ (∀ c : MetricNode, count_features (.metricWithCI true c) = count_features c * 3)
    ∧ (∀ c : MetricNode, count_features (.metricWithCI false c) = count_features c * 2)
    ∧ (∀ q : Nat, count_features (.quantile true q) = 1)
    ∧ (∀ q : Nat, count_features (.quantile false q) = q)
    ∧ count_features .simple = 1 := by
  refine ⟨?_, fun a b => rfl, fun c => by simp [count_features],
    fun c => by simp [count_features], fun q => rfl, fun q => rfl, rfl⟩
  intro cs
  show count_features_list cs = _
  induction cs with
  | nil => rfl
  | cons c cs ih => simp [count_features_list, ih]

/-- C2: in the closed-form solve without normalization, for a Ridge model the
linear system handed to the external solver is `(XtX + (alpha / n_obs) * P)
beta = Xty`, where `XtX, Xty` are exactly the averaged moments assembled by
`construct_matrix_from_elements` and `P` is the identity whose diagonal entry
for the intercept row is zeroed when `fit_intercept` is true, so the intercept
is never penalized. -/
theorem ridge_pushdown_penalized_system (solve : List (List ℚ) → List ℚ → List ℚ)
    (cond : List (List ℚ) → ℚ) (stats : String → ℚ) (xs : List String) (m : ModelCfg)
    (hridge : m.isRidge = true) (hnn : (m.fit_intercept && m.normalize) = false) :
    ∃ A b P,
      construct_matrix_from_elements stats xs m.fit_intercept = .ok (A, b)
      ∧ P = mkMat (xs.length + (if m.fit_intercept = true then 1 else 0)) (fun i j =>
          matEntry A i j
          + (if i = j ∧ ¬(m.fit_intercept = true ∧ i = 0) then m.alpha / stats "n_obs" else 0))
      ∧ compute_ridge_coefs solve cond stats xs m
          = .ok ⟨if cond P > 20 then [cond_warning] else [],
              (if m.fit_intercept = true then "intercept" :: xs.map clean_name
                else xs.map clean_name),
              solve P b⟩ := by
  by_cases hfi : m.fit_intercept = true
  · have hnor : m.normalize = false := by
      cases hn : m.normalize
      · rfl
      · rw [hfi, hn] at hnn
        exact absurd hnn (by decide)
    refine ⟨_, _, _, (by rw [hfi]; exact construct_intercept stats xs), rfl, ?_⟩
    rw [compute_ridge_coefs_intercept_eq solve cond stats xs m hfi hnor]
    have hM : matAdd (mkMat (xs.length + 1) fun i j =>
          if min i j = 0 then (if max i j = 0 then 1 else stats (xName (max i j - 1)))
          else stats (pairName (min i j - 1) (max i j - 1)))
        (smul (m.alpha / stats "n_obs") (penaltyMat (xs.length + 1) true))
        = mkMat (xs.length + 1) (fun i j =>
            matEntry (mkMat (xs.length + 1) fun i j =>
              if min i j = 0 then (if max i j = 0 then 1 else stats (xName (max i j - 1)))
              else stats (pairName (min i j - 1) (max i j - 1))) i j
            + (if i = j ∧ ¬ i = 0 then m.alpha / stats "n_obs" else 0)) := by
      rw [show penaltyMat (xs.length + 1) true
          = mkMat (xs.length + 1) (fun i j =>
              if i = j then (if true = true ∧ i = 0 then 0 else 1) else 0) from rfl]
      rw [smul_mkMat, matAdd_mkMat]
      apply mkMat_congr
      intro i j hi hj
      rw [matEntry_mkMat _ _ i j hi hj]
      by_cases hij : i = j
      · by_cases h0 : i = 0 <;> simp [hij, h0]
      · simp [hij]
    simp only [hridge, hfi, hM]
    simp
  · have hfi2 : m.fit_intercept = false := by
      cases h : m.fit_intercept
      · rfl
      · exact absurd h hfi
    refine ⟨_, _, _, (by rw [hfi2]; exact construct_no_intercept stats xs), rfl, ?_⟩
    rw [compute_ridge_coefs_no_intercept_eq solve cond stats xs m hfi2]
    have hM : matAdd (mkMat xs.length fun i j => stats (pairName (min i j) (max i j)))
        (smul (m.alpha / stats "n_obs") (penaltyMat xs.length false))
        = mkMat xs.length (fun i j =>
            matEntry (mkMat xs.length fun i j => stats (pairName (min i j) (max i j))) i j
            + (if i = j then m.alpha / stats "n_obs" else 0)) := by
      rw [show penaltyMat xs.length false
          = mkMat xs.length (fun i j =>
              if i = j then (if false = true ∧ i = 0 then 0 else 1) else 0) from rfl]
      rw [smul_mkMat, matAdd_mkMat]
      apply mkMat_congr
      intro i j hi hj
      rw [matEntry_mkMat _ _ i j hi hj]
      by_cases hij : i = j <;> simp [hij]
    simp only [hridge, hfi2, hM]
    simp

/-- Witness for C2: the theorem applied to a one-feature Ridge configuration
without intercept, on the constant statistics row 1. -/
theorem ridge_pushdown_penalized_system_witness :
    ∃ A b P,
      construct_matrix_from_elements (fun _ => 1) ["a"] (⟨true, 1, false, false⟩ : ModelCfg).fit_intercept
          = .ok (A, b)
      ∧ P = mkMat (["a"].length + (if (⟨true, 1, false, false⟩ : ModelCfg).fit_intercept = true then 1 else 0))
          (fun i j => matEntry A i j
            + (if i = j ∧ ¬((⟨true, 1, false, false⟩ : ModelCfg).fit_intercept = true ∧ i = 0)
              then (⟨true, 1, false, false⟩ : ModelCfg).alpha / (fun _ => (1 : ℚ)) "n_obs" else 0))
      ∧ compute_ridge_coefs (fun _ _ => [1]) (fun _ => 0) (fun _ => 1) ["a"]
            ⟨true, 1, false, false⟩
          = .ok ⟨if (fun _ => (0 : ℚ)) P > 20 then [cond_warning] else [],
              (if (⟨true, 1, false, false⟩ : ModelCfg).fit_intercept = true
                then "intercept" :: ["a"].map clean_name else ["a"].map clean_name),
              (fun _ _ => [(1 : ℚ)]) P b⟩ :=
  ridge_pushdown_penalized_system (fun _ _ => [1]) (fun _ => 0) (fun _ => 1) ["a"]
    ⟨true, 1, false, false⟩ (by rfl) (by rfl)

/-- C3: with `fit_intercept` and `normalize` both set, the solver derives the
centered cross-moments algebraically as `stats[xixj] - stats[xi]*stats[xj]`
(symmetrized) and `stats[xiy] - stats[xi]*stats[y]`, adds the per-feature
ridge penalty `alpha * diag(XtX)` (not divided by `n_obs`), solves, and
returns the intercept `stats[y] - coef . (stats[x0..x_{k-1}])` in front of
the coefficients. -/
theorem normalize_ridge_solve (solve : List (List ℚ) → List ℚ → List ℚ)
    (cond : List (List ℚ) → ℚ) (stats : String → ℚ) (xs : List String) (m : ModelCfg)
    (hfi : m.fit_intercept = true) (hnor : m.normalize = true) :
    ∃ A b,
      A = mkMat xs.length (fun i j =>
          (stats (pairName (min i j) (max i j))
            - stats (xName (min i j)) * stats (xName (max i j)))
          + (if m.isRidge = true ∧ i = j
            then m.alpha * (stats (pairName i i) - stats (xName i) * stats (xName i)) else 0))
      ∧ b = (List.range xs.length).map (fun i => stats (xyName i) - stats (xName i) * stats "y")
      ∧ compute_ridge_coefs solve cond stats xs m
          = .ok ⟨if cond A > 20 then [cond_warning] else [],
              "intercept" :: xs.map clean_name,
              (stats "y" - dot (solve A b) ((List.range xs.length).map fun i => stats (xName i)))
                :: solve A b⟩ := by
  refine ⟨_, _, rfl, rfl, ?_⟩
  have hbranch : compute_ridge_coefs solve cond stats xs m
      = compute_coef_for_normalize_ridge solve cond stats xs m := by
    unfold compute_ridge_coefs
    rw [hfi, hnor]
    rfl
  rw [hbranch, compute_coef_for_normalize_ridge_eq]
  have hA : (if m.isRidge = true then
        matAdd (mkMat xs.length fun i j =>
            stats (pairName (min i j) (max i j))
              - stats (xName (min i j)) * stats (xName (max i j)))
          (smul m.alpha (diagOf (mkMat xs.length fun i j =>
            stats (pairName (min i j) (max i j))
              - stats (xName (min i j)) * stats (xName (max i j)))))
      else mkMat xs.length fun i j =>
          stats (pairName (min i j) (max i j))
            - stats (xName (min i j)) * stats (xName (max i j)))
      = mkMat xs.length (fun i j =>
          (stats (pairName (min i j) (max i j))
            - stats (xName (min i j)) * stats (xName (max i j)))
          + (if m.isRidge = true ∧ i = j
            then m.alpha * (stats (pairName i i) - stats (xName i) * stats (xName i))
            else 0)) := by
    cases hR : m.isRidge
    · simp only [Bool.false_eq_true, if_false]
      apply mkMat_congr
      intro i j hi hj
      simp
    · simp only [if_true]
      rw [diagOf_mkMat, smul_mkMat, matAdd_mkMat]
      apply mkMat_congr
      intro i j hi hj
      by_cases hij : i = j
      · subst hij
        simp [min_self, max_self]
      · simp [hij]
  simp only [hA]

/-- Witness for C3: the theorem applied to a one-feature normalized Ridge
configuration on the constant statistics row 1. -/
theorem normalize_ridge_solve_witness :
    ∃ A b,
      A = mkMat (["a"] : List String).length (fun i j =>
          ((fun _ => (1 : ℚ)) (pairName (min i j) (max i j))
            - (fun _ => (1 : ℚ)) (xName (min i j)) * (fun _ => (1 : ℚ)) (xName (max i j)))
          + (if (⟨true, 1, true, true⟩ : ModelCfg).isRidge = true ∧ i = j
            then (⟨true, 1, true, true⟩ : ModelCfg).alpha
              * ((fun _ => (1 : ℚ)) (pairName i i)
                - (fun _ => (1 : ℚ)) (xName i) * (fun _ => (1 : ℚ)) (xName i))
            else 0))
      ∧ b = (List.range (["a"] : List String).length).map (fun i =>
          (fun _ => (1 : ℚ)) (xyName i) - (fun _ => (1 : ℚ)) (xName i) * (fun _ => (1 : ℚ)) "y")
      ∧ compute_ridge_coefs (fun _ _ => [1]) (fun _ => 0) (fun _ => 1) ["a"]
            ⟨true, 1, true, true⟩
          = .ok ⟨if (fun _ => (0 : ℚ)) A > 20 then [cond_warning] else [],
              "intercept" :: (["a"] : List String).map clean_name,
              ((fun _ => (1 : ℚ)) "y" - dot ((fun _ _ => [(1 : ℚ)]) A b)
                  ((List.range (["a"] : List String).length).map fun i =>
                    (fun _ => (1 : ℚ)) (xName i)))
                :: (fun _ _ => [(1 : ℚ)]) A b⟩ :=
  normalize_ridge_solve (fun _ _ => [1]) (fun _ => 0) (fun _ => 1) ["a"]
    ⟨true, 1, true, true⟩ (by rfl) (by rfl)

lemma matAdd_smul_zero (n : Nat) (F G : Nat → Nat → ℚ) :
    matAdd (mkMat n F) (smul 0 (mkMat n G)) = mkMat n F := by
  rw [smul_mkMat, matAdd_mkMat]
  apply mkMat_congr
  intro i j _ _
  simp

/-- C7: on every sufficient-statistics row and every configuration, the
closed-form solve returns a coefficient row (it never raises); its warning
list is exactly `[cond_warning]` when the externally computed condition number
of the solved (penalized) matrix exceeds 20 and is empty otherwise, and the
coefficient row comes from solving that same matrix. -/
theorem cond_warning_nonfatal (solve : List (List ℚ) → List ℚ → List ℚ)
    (cond : List (List ℚ) → ℚ) (stats : String → ℚ) (xs : List String) (m : ModelCfg) :
    ∃ A b r,
      compute_ridge_coefs solve cond stats xs m = .ok r
      ∧ r.warnings = (if cond A > 20 then [cond_warning] else [])
      ∧ (r.coef = solve A b ∨ ∃ c, r.coef = c :: solve A b) := by
  by_cases hfn : m.fit_intercept = true ∧ m.normalize = true
  · obtain ⟨hfi, hnor⟩ := hfn
    have hbranch : compute_ridge_coefs solve cond stats xs m
        = compute_coef_for_normalize_ridge solve cond stats xs m := by
      unfold compute_ridge_coefs
      rw [hfi, hnor]
      rfl
    rw [hbranch, compute_coef_for_normalize_ridge_eq]
    exact ⟨_, _, _, rfl, rfl, Or.inr ⟨_, rfl⟩⟩
  · by_cases hfi : m.fit_intercept = true
    · have hnor : m.normalize = false := by
        cases hn : m.normalize
        · rfl
        · exact absurd ⟨hfi, hn⟩ hfn
      rw [compute_ridge_coefs_intercept_eq solve cond stats xs m hfi hnor]
      exact ⟨_, _, _, rfl, rfl, Or.inl rfl⟩
    · have hfi2 : m.fit_intercept = false := by
        cases h : m.fit_intercept
        · rfl
        · exact absurd h hfi
      rw [compute_ridge_coefs_no_intercept_eq solve cond stats xs m hfi2]
      exact ⟨_, _, _, rfl, rfl, Or.inl rfl⟩

/-- C9: `LinearRegression.compute_on_sql_magic_mode` delegates to a Ridge
model with `alpha = 0` and identical configuration, and in the solver a zero
alpha contributes a zero penalty, so the Ridge-0 pushdown computation equals
the plain OLS (non-Ridge) computation — the solved system is exactly the OLS
normal equations — for every statistics row, in both solver branches. -/
theorem ridge_zero_alpha_is_ols (solve : List (List ℚ) → List ℚ → List ℚ)
    (cond : List (List ℚ) → ℚ) (stats : String → ℚ) (xs : List String)
    (fi nor : Bool) (a : ℚ) :
    linear_regression_magic_coefs solve cond stats xs fi nor
        = ridge_magic_coefs solve cond stats xs 0 fi nor
      ∧ ridge_magic_coefs solve cond stats xs 0 fi nor
        = compute_ridge_coefs solve cond stats xs ⟨false, a, fi, nor⟩ := by
  refine ⟨rfl, ?_⟩
  unfold ridge_magic_coefs
  by_cases hfi : fi = true
  · subst hfi
    by_cases hnor : nor = true
    · subst hnor
      have h1 : compute_ridge_coefs solve cond stats xs ⟨true, 0, true, true⟩
          = compute_coef_for_normalize_ridge solve cond stats xs ⟨true, 0, true, true⟩ := rfl
      have h2 : compute_ridge_coefs solve cond stats xs ⟨false, a, true, true⟩
          = compute_coef_for_normalize_ridge solve cond stats xs ⟨false, a, true, true⟩ := rfl
      rw [h1, h2, compute_coef_for_normalize_ridge_eq, compute_coef_for_normalize_ridge_eq]
      simp [diagOf_mkMat, matAdd_smul_zero]
    · have hnor2 : nor = false := by
        cases nor
        · rfl
        · exact absurd rfl hnor
      subst hnor2
      rw [compute_ridge_coefs_intercept_eq solve cond stats xs ⟨true, 0, true, false⟩ rfl rfl,
        compute_ridge_coefs_intercept_eq solve cond stats xs ⟨false, a, true, false⟩ rfl rfl]
      simp [penaltyMat, zero_div, matAdd_smul_zero]
  · have hfi2 : fi = false := by
      cases fi
      · rfl
      · exact absurd rfl hfi
    subst hfi2
    rw [compute_ridge_coefs_no_intercept_eq solve cond stats xs ⟨true, 0, false, nor⟩ rfl,
      compute_ridge_coefs_no_intercept_eq solve cond stats xs ⟨false, a, false, nor⟩ rfl]
    simp [penaltyMat, zero_div, matAdd_smul_zero]

/-- C10 (implicit): when a not-yet-converged slice's Newton step is below
tolerance, `newtons_method` both marks the slice converged and still applies
that final sub-tolerance update — `coef[i] -= delta` runs in the same
iteration, so the returned coefficients include the last computed step. -/
theorem newton_subtol_step_applied (solve : List (List ℚ) → List ℚ → List ℚ)
    (gradsF : List (List ℚ) → List Bool → List (List ℚ))
    (hessF : List (List ℚ) → List Bool → List (List (List ℚ)))
    (tol : ℚ) (c : List (List ℚ)) (v : List Bool) (i : Nat)
    (hi : i < c.length) (hunc : v.getD i false = false)
    (htol : maxAbs (solve ((hessF c v).getD i []) ((gradsF c v).getD i [])) < tol) :
    (newton_step solve gradsF hessF tol c v).2.getD i false = true
    ∧ (newton_step solve gradsF hessF tol c v).1.getD i []
      = listSub (c.getD i []) (solve ((hessF c v).getD i []) ((gradsF c v).getD i [])) := by
  constructor
  · rw [newton_step_conv_getD solve gradsF hessF tol c v i hi, hunc,
      if_neg (show ¬(false = true) from by decide)]
    exact decide_eq_true htol
  · rw [newton_step_coef_getD solve gradsF hessF tol c v i hi, hunc]
    simp

/-- Witness for C10: a single unconverged slice whose solved step `[0]` is
below the tolerance 1 still gets the update applied. -/
theorem newton_subtol_step_applied_witness :
    (0 < ([[(1 : ℚ)]] : List (List ℚ)).length)
    ∧ ([false].getD 0 false = false)
    ∧ maxAbs [(0 : ℚ)] < 1
    ∧ ((newton_step (fun _ _ => [(0 : ℚ)]) (fun _ _ => ([] : List (List ℚ)))
          (fun _ _ => ([] : List (List (List ℚ)))) 1 [[1]] [false]).2.getD 0 false = true
      ∧ (newton_step (fun _ _ => [(0 : ℚ)]) (fun _ _ => ([] : List (List ℚ)))
          (fun _ _ => ([] : List (List (List ℚ)))) 1 [[1]] [false]).1.getD 0 []
        = listSub ([[(1 : ℚ)]].getD 0 []) [(0 : ℚ)]) :=
  ⟨by decide, rfl, by simp [maxAbs],
    newton_subtol_step_applied (fun _ _ => [(0 : ℚ)]) (fun _ _ => ([] : List (List ℚ)))
      (fun _ _ => ([] : List (List (List ℚ)))) 1 [[1]] [false] 0
      (by decide) rfl (by simp [maxAbs])⟩

/-- C8: `newtons_method` performs at most `max_iter` iterations of
`newton_step` (the returned coefficients are some `t ≤ max_iter`-fold
iterate), returns as soon as all slices are converged (every strictly earlier
iterate still had an unconverged slice, and no warning is produced), and when
`max_iter` is reached with an unconverged slice it returns the last iterate
together with exactly one non-fatal warning that names the unconverged groups
(for several slices). Each step solves `Hessian delta = gradient` and updates
`coef[i] -= delta` for every not-yet-converged slice, marking it converged
exactly when `max |delta| < tol`. -/
theorem newtons_method_spec (solve : List (List ℚ) → List ℚ → List ℚ)
    (gradsF : List (List ℚ) → List Bool → List (List ℚ))
    (hessF : List (List ℚ) → List Bool → List (List (List ℚ)))
    (tol : ℚ) (max_iter : Nat) (conds : List String) (coef : List (List ℚ)) :
    (∃ t w, t ≤ max_iter
      ∧ newtons_method solve coef gradsF hessF tol max_iter conds
          = ((newton_iterates solve gradsF hessF tol (coef, coef.map fun _ => false) t).1, w)
      ∧ (∀ u, 0 < u → u < t →
          ((newton_iterates solve gradsF hessF tol (coef, coef.map fun _ => false) u).2.all
            (· = true)) = false)
      ∧ (w = [] →
          ((newton_iterates solve gradsF hessF tol (coef, coef.map fun _ => false) t).2.all
            (· = true)) = true)
      ∧ (w ≠ [] → t = max_iter
          ∧ w = [if coef.length = 1 then NewtonWarning.generic
              else NewtonWarning.slices (unconverged_conds conds
                (newton_iterates solve gradsF hessF tol (coef, coef.map fun _ => false) t).2)]))
    ∧ (∀ c v i, i < c.length → v.getD i false = false →
        (newton_step solve gradsF hessF tol c v).1.getD i []
          = listSub (c.getD i []) (solve ((hessF c v).getD i []) ((gradsF c v).getD i []))
        ∧ ((newton_step solve gradsF hessF tol c v).2.getD i false = true
          ↔ maxAbs (solve ((hessF c v).getD i []) ((gradsF c v).getD i [])) < tol)) := by
  constructor
  · obtain ⟨t, b, ht, heq, hmin, hbt, hbf⟩ :=
      newton_loop_spec solve gradsF hessF tol max_iter (coef, coef.map fun _ => false)
    have heq' : newton_loop solve gradsF hessF tol max_iter coef (coef.map fun _ => false)
        = (newton_iterates solve gradsF hessF tol (coef, coef.map fun _ => false) t, b) := heq
    cases b with
    | true =>
      refine ⟨t, [], ht, ?_, hmin, fun _ => (hbt rfl).1, fun h => absurd rfl h⟩
      unfold newtons_method
      rw [heq']
      rfl
    | false =>
      refine ⟨t, [if coef.length = 1 then NewtonWarning.generic
          else NewtonWarning.slices (unconverged_conds conds
            (newton_iterates solve gradsF hessF tol (coef, coef.map fun _ => false) t).2)],
        ht, ?_, hmin, ?_, ?_⟩
      · unfold newtons_method
        rw [heq']
        rfl
      · intro h
        exact absurd h (by simp)
      · intro _
        exact ⟨(hbf rfl).1, rfl⟩
  · intro c v i hi hunc
    constructor
    · rw [newton_step_coef_getD solve gradsF hessF tol c v i hi, hunc]
      simp
    · rw [newton_step_conv_getD solve gradsF hessF tol c v i hi, hunc]
      simp

/-- Witness for C8: the per-step characterisation applied to a concrete
unconverged slice. -/
theorem newtons_method_spec_witness :
    (0 < ([[(4 : ℚ)]] : List (List ℚ)).length)
    ∧ ([false].getD 0 false = false)
    ∧ ((newton_step (fun _ _ => [(1 : ℚ)]) (fun _ _ => ([] : List (List ℚ)))
          (fun _ _ => ([] : List (List (List ℚ)))) 2 [[4]] [false]).1.getD 0 []
        = listSub ([[(4 : ℚ)]].getD 0 []) [(1 : ℚ)]
      ∧ ((newton_step (fun _ _ => [(1 : ℚ)]) (fun _ _ => ([] : List (List ℚ)))
          (fun _ _ => ([] : List (List (List ℚ)))) 2 [[4]] [false]).2.getD 0 false = true
        ↔ maxAbs [(1 : ℚ)] < 2)) :=
  ⟨by decide, rfl,
    (newtons_method_spec (fun _ _ => [(1 : ℚ)]) (fun _ _ => ([] : List (List ℚ)))
        (fun _ _ => ([] : List (List (List ℚ)))) 2 0 [] []).2
      [[4]] [false] 0 (by decide) rfl⟩

/-- C5: `Model.compute_through_sql` with mode 'mixed' or unset first attempts
the pushdown/magic path: a successful magic computation is returned with the
name template applied; on the distinguished `MaybeBadSqlModeError` signal the
children-through-SQL local-fit fallback result is returned, so the signal
never reaches the caller when the fallback succeeds; when the fallback also
fails the distinguished signal is re-raised unchanged. Mode 'sql' raises a
ValueError immediately and so does an unknown mode string. The inherited
`compute_on_sql_mixed_mode` is modelled from the spec because `operations.py`
is not among the sources. -/
theorem compute_through_sql_mixed_spec (α : Type) (name : String) (allC : Bool)
    (tmpl : α → α) (magicRaw fallback : Except PyErr α) :
    (∀ s : String, s ≠ "sql" → s ≠ "mixed" → s ≠ "magic" →
      compute_through_sql (some s) name allC tmpl magicRaw fallback
        = .error (.valueError ("Mode " ++ s ++ " is not supported!")))
    ∧ compute_through_sql (some "sql") name allC tmpl magicRaw fallback
        = .error (.valueError (name ++ " is not computable in pure SQL!"))
    ∧ (∀ md : Option String, md = none ∨ md = some "mixed" →
        (∀ r, magicRaw = .ok r →
          compute_through_sql md name allC tmpl magicRaw fallback = .ok (some (tmpl r)))
        ∧ (∀ e r, magicRaw = .error e → fallback = .ok r →
          compute_through_sql md name allC tmpl magicRaw fallback = .ok (some r))
        ∧ (∀ e e2, magicRaw = .error e → fallback = .error e2 →
          compute_through_sql md name allC tmpl magicRaw fallback
            = .error (.maybeBadSqlMode "mixed"))) := by
  refine ⟨?_, ?_, ?_⟩
  · intro s h1 h2 h3
    unfold compute_through_sql
    rw [if_pos (by simp [h1, h2, h3])]
    rfl
  · unfold compute_through_sql
    rw [if_neg (by simp), if_pos rfl]
  · intro md hmd
    refine ⟨?_, ?_, ?_⟩
    · intro r hr
      subst hr
      rcases hmd with h | h <;> subst h <;> rfl
    · intro e r he hf
      subst he
      subst hf
      rcases hmd with h | h <;> subst h <;> rfl
    · intro e e2 he hf
      subst he
      subst hf
      rcases hmd with h | h <;> subst h <;> rfl

/-- Witness for C5: an unknown mode, a successful fallback after a failed
magic attempt, and a doubly-failing configuration, all at concrete values. -/
theorem compute_through_sql_mixed_spec_witness :
    ("bogus" ≠ "sql")
    ∧ compute_through_sql (some "bogus") "m" true id
        (Except.error (PyErr.otherError "boom") : Except PyErr ℕ) (.ok 7)
        = .error (.valueError ("Mode " ++ "bogus" ++ " is not supported!"))
    ∧ compute_through_sql (some "mixed") "m" true id
        (Except.error (PyErr.otherError "boom") : Except PyErr ℕ) (.ok 7)
        = .ok (some 7)
    ∧ compute_through_sql none "m" true id
        (Except.error (PyErr.otherError "boom") : Except PyErr ℕ)
        (.error (.otherError "boom2"))
        = .error (.maybeBadSqlMode "mixed") := by
  refine ⟨by decide, ?_, ?_, ?_⟩
  · exact (compute_through_sql_mixed_spec ℕ "m" true id
      (Except.error (PyErr.otherError "boom")) (.ok 7)).1 "bogus"
      (by decide) (by decide) (by decide)
  · exact ((compute_through_sql_mixed_spec ℕ "m" true id
      (Except.error (PyErr.otherError "boom")) (.ok 7)).2.2 (some "mixed")
      (Or.inr rfl)).2.1 (PyErr.otherError "boom") 7 rfl rfl
  · exact ((compute_through_sql_mixed_spec ℕ "m" true id
      (Except.error (PyErr.otherError "boom")) (.error (.otherError "boom2"))).2.2 none
      (Or.inl rfl)).2.2 (PyErr.otherError "boom") (PyErr.otherError "boom2") rfl rfl
